import Mathlib

set_option maxHeartbeats 1000000

/-!
Shallow embedding of `src/helpers/fga_retriever.py` (class `FGARetriever`)
and theorems about its filtering semantics.

The Python code filters a list of retrieved documents through an OpenFGA
batch authorization check:

* `_filter_FGA` / `_async_filter_FGA` build one `ClientBatchCheckItem` per
  document via the caller-supplied `build_query`, accumulate the dictionary
  `obj_to_doc[check.object] = doc` over `zip(checks, docs)`, issue one
  `batch_check` with all checks, and return
  `[obj_to_doc[result.request.object] for result in fga_response.result if result.allowed]`.
* `_get_relevant_documents` / `_aget_relevant_documents` fetch candidates
  from the wrapped retriever and pass them through the filter.
* `__init__` resolves the FGA client configuration from an explicit argument
  or, failing that, from environment variables with hard-coded fallbacks.

External effects (the FGA network call, the upstream retriever, the process
environment) are passed in as explicit function arguments; a Python
exception is an `Except.error`.
-/

/-- A langchain `Document`: stable identifier, page content, and a metadata
mapping (modelled as an association list of string pairs). -/
structure Document where
  id : String
  page_content : String
  metadata : List (String × String)
deriving DecidableEq, Repr

/-- openfga_sdk `ClientBatchCheckItem`: one authorization query consisting of
a subject (`user`), a `relation` and an `object` identifier. -/
structure ClientBatchCheckItem where
  user : String
  relation : String
  object : String
deriving DecidableEq, Repr

/-- One entry of the batch-check response: it echoes the originating request
(the code reads `result.request.object`) and carries the boolean decision
(`result.allowed`). -/
structure ClientBatchCheckSingleResponse where
  request : ClientBatchCheckItem
  allowed : Bool
deriving DecidableEq, Repr

/-- openfga_sdk batch-check response: the code iterates `fga_response.result`. -/
structure ClientBatchCheckResponse where
  result : List ClientBatchCheckSingleResponse
deriving DecidableEq, Repr

/-- The dictionary `obj_to_doc` built by
`for check, doc in zip(checks, docs): obj_to_doc[check.object] = doc`,
viewed as a lookup function.  A later assignment to the same key overwrites
an earlier one, so looking up a key returns the document of the *last* pair
in `zip checks docs` whose check has that `object`; a key never assigned
returns `none` (in Python the subscript raises `KeyError`). -/
def obj_to_doc (checks : List ClientBatchCheckItem) (docs : List Document)
    (key : String) : Option Document :=
  (((checks.zip docs).filter (fun p => p.1.object = key)).getLast?).map
    (fun p => p.2)

/-- A Python dictionary subscript `d[k]` applied to the value the dictionary
holds at `k` (if any): it returns the value, or raises `KeyError` when the
key is absent. -/
def dict_getitem {β : Type} (held : Option β) : Except String β :=
  match held with
  | some b => Except.ok b
  | none => Except.error "KeyError"

/-- `FGARetriever._filter_FGA` (src/helpers/fga_retriever.py lines 102-130)
from the point where the batch-check response is in hand: the query list
`checks = [build_query(doc) for doc in docs]`, the `obj_to_doc` dictionary,
and the final comprehension
`[obj_to_doc[result.request.object] for result in fga_response.result if result.allowed]`.
A lookup of an object that was never a key raises `KeyError`, modelled as
`Except.error "KeyError"`. -/
def filter_FGA_core (build_query : Document → ClientBatchCheckItem)
    (docs : List Document) (fga_response : ClientBatchCheckResponse) :
    Except String (List Document) :=
  (fga_response.result.filter (fun r => r.allowed)).mapM (fun result =>
    dict_getitem (obj_to_doc (docs.map build_query) docs result.request.object))

/-- `FGARetriever._async_filter_FGA` (src/helpers/fga_retriever.py lines
55-83) from the point where the batch-check response is in hand.  The Python
body is line-for-line the same as the synchronous `_filter_FGA`; only the
client object differs (async `OpenFgaClient` vs `OpenFgaClientSync`). -/
def async_filter_FGA_core (build_query : Document → ClientBatchCheckItem)
    (docs : List Document) (fga_response : ClientBatchCheckResponse) :
    Except String (List Document) :=
  (fga_response.result.filter (fun r => r.allowed)).mapM (fun result =>
    dict_getitem (obj_to_doc (docs.map build_query) docs result.request.object))

/-- `FGARetriever._filter_FGA` with the FGA client's `batch_check` passed in
as an oracle `List ClientBatchCheckItem → Except String ClientBatchCheckResponse`
(an `Except.error` is the client raising).  The function builds the checks,
makes the single batch call, and on success runs the join/filter
comprehension; a client error propagates unchanged. -/
def filter_FGA (build_query : Document → ClientBatchCheckItem)
    (batch_check : List ClientBatchCheckItem → Except String ClientBatchCheckResponse)
    (docs : List Document) : Except String (List Document) :=
  let checks := docs.map build_query
  match batch_check checks with
  | Except.error e => Except.error e
  | Except.ok fga_response => filter_FGA_core build_query docs fga_response

/-- `FGARetriever._async_filter_FGA` with the async client's `batch_check`
passed in as an oracle; same shape as `filter_FGA`. -/
def async_filter_FGA (build_query : Document → ClientBatchCheckItem)
    (batch_check : List ClientBatchCheckItem → Except String ClientBatchCheckResponse)
    (docs : List Document) : Except String (List Document) :=
  let checks := docs.map build_query
  match batch_check checks with
  | Except.error e => Except.error e
  | Except.ok fga_response => async_filter_FGA_core build_query docs fga_response

/-- Call trace of one `_filter_FGA` invocation: the returned value, the list
of arguments `build_query` was applied to (in call order), and the payload of
each `batch_check` call made (in call order). -/
structure FilterTrace where
  output : Except String (List Document)
  build_query_args : List Document
  batch_check_payloads : List (List ClientBatchCheckItem)
deriving Repr

/-- `FGARetriever._filter_FGA` instrumented with its call trace.  In the
source, `build_query` is applied exactly once to each document by the
comprehension `checks = [self._query_builder(doc) for doc in docs]`, and
`batch_check` is called exactly once, with `ClientBatchCheckRequest(checks=checks)`,
on every path; the trace records those call sites. -/
def filter_FGA_traced (build_query : Document → ClientBatchCheckItem)
    (batch_check : List ClientBatchCheckItem → Except String ClientBatchCheckResponse)
    (docs : List Document) : FilterTrace :=
  let checks := docs.map build_query
  { output := filter_FGA build_query batch_check docs
    build_query_args := docs
    batch_check_payloads := [checks] }

/-- `FGARetriever._async_filter_FGA` instrumented with its call trace; the
async body has the identical call structure. -/
def async_filter_FGA_traced (build_query : Document → ClientBatchCheckItem)
    (batch_check : List ClientBatchCheckItem → Except String ClientBatchCheckResponse)
    (docs : List Document) : FilterTrace :=
  let checks := docs.map build_query
  { output := async_filter_FGA build_query batch_check docs
    build_query_args := docs
    batch_check_payloads := [checks] }

/-- `FGARetriever._get_relevant_documents` (src/helpers/fga_retriever.py
lines 132-146): fetch candidates from the wrapped retriever, then filter
them with `_filter_FGA`.  The upstream retriever is an oracle
`String → Except String (List Document)`; its error propagates and no batch
call is reflected in the result. -/
def get_relevant_documents
    (retriever : String → Except String (List Document))
    (build_query : Document → ClientBatchCheckItem)
    (batch_check : List ClientBatchCheckItem → Except String ClientBatchCheckResponse)
    (query : String) : Except String (List Document) :=
  match retriever query with
  | Except.error e => Except.error e
  | Except.ok docs => filter_FGA build_query batch_check docs

/-- `FGARetriever._aget_relevant_documents`: the async counterpart, calling
`_async_filter_FGA`. -/
def aget_relevant_documents
    (retriever : String → Except String (List Document))
    (build_query : Document → ClientBatchCheckItem)
    (batch_check : List ClientBatchCheckItem → Except String ClientBatchCheckResponse)
    (query : String) : Except String (List Document) :=
  match retriever query with
  | Except.error e => Except.error e
  | Except.ok docs => async_filter_FGA build_query batch_check docs

/-- openfga_sdk `CredentialConfiguration` as constructed by
`FGARetriever.__init__`: issuer and audience always receive a string (after
the `or` fallback), client id and secret are whatever `os.getenv` returned. -/
structure CredentialConfiguration where
  api_issuer : String
  api_audience : String
  client_id : Option String
  client_secret : Option String
deriving DecidableEq, Repr

/-- openfga_sdk `Credentials(method=..., configuration=...)`. -/
structure Credentials where
  method : String
  configuration : CredentialConfiguration
deriving DecidableEq, Repr

/-- openfga_sdk `ClientConfiguration` as constructed by
`FGARetriever.__init__`. -/
structure ClientConfiguration where
  api_url : String
  store_id : Option String
  credentials : Credentials
deriving DecidableEq, Repr

/-- Python `os.getenv(key) or dflt`: `None` and the empty string (both falsy)
fall back to the default; any other string is returned as-is. -/
def getenvOr (env : String → Option String) (key dflt : String) : String :=
  match env key with
  | none => dflt
  | some s => if s = "" then dflt else s

/-- The configuration resolution in `FGARetriever.__init__`
(src/helpers/fga_retriever.py lines 23-53):
`self._fga_configuration = fga_configuration or ClientConfiguration(...)`.
A passed configuration (always truthy in Python) is used as-is; otherwise a
fresh configuration is built once from the environment `env`, with the
hard-coded fallbacks for `api_url`, `api_issuer` and `api_audience`. -/
def resolve_fga_configuration (fga_configuration : Option ClientConfiguration)
    (env : String → Option String) : ClientConfiguration :=
  match fga_configuration with
  | some c => c
  | none =>
      { api_url := getenvOr env "FGA_API_URL" "api.us1.fga.dev"
        store_id := env "FGA_STORE_ID"
        credentials :=
          { method := "client_credentials"
            configuration :=
              { api_issuer := getenvOr env "FGA_API_TOKEN_ISSUER" "auth.fga.dev"
                api_audience := getenvOr env "FGA_API_AUDIENCE" "https://api.us1.fga.dev/"
                client_id := env "FGA_CLIENT_ID"
                client_secret := env "FGA_CLIENT_SECRET" } } }

/-! ### Helper lemmas about the embedded definitions -/

lemma dict_getitem_some {β : Type} (b : β) :
    dict_getitem (some b) = Except.ok b := rfl

lemma dict_getitem_none {β : Type} :
    dict_getitem (none : Option β) = (Except.error "KeyError" : Except String β) := rfl

lemma zip_map_self (bq : Document → ClientBatchCheckItem) (docs : List Document) :
    (docs.map bq).zip docs = docs.map (fun d => (bq d, d)) := by
  induction docs with
  | nil => rfl
  | cons d docs ih => simp [ih]

/-- The `obj_to_doc` dictionary over `zip (docs.map bq) docs` looks up the
*last* document whose query object is the key. -/
lemma obj_to_doc_eq_getLast (bq : Document → ClientBatchCheckItem)
    (docs : List Document) (key : String) :
    obj_to_doc (docs.map bq) docs key
      = (docs.filter (fun d => (bq d).object = key)).getLast? := by
  unfold obj_to_doc
  rw [zip_map_self, List.filter_map, List.getLast?_map, Option.map_map]
  simp [Function.comp_def]

lemma obj_to_doc_isSome_iff (bq : Document → ClientBatchCheckItem)
    (docs : List Document) (key : String) :
    (obj_to_doc (docs.map bq) docs key).isSome = true
      ↔ ∃ d ∈ docs, (bq d).object = key := by
  rw [obj_to_doc_eq_getLast, List.getLast?_isSome, ne_eq, List.filter_eq_nil_iff]
  push_neg
  simp

lemma obj_to_doc_mem (bq : Document → ClientBatchCheckItem)
    (docs : List Document) (key : String) (d : Document)
    (h : obj_to_doc (docs.map bq) docs key = some d) :
    d ∈ docs ∧ (bq d).object = key := by
  rw [obj_to_doc_eq_getLast] at h
  have hm : d ∈ docs.filter (fun x => (bq x).object = key) :=
    List.mem_of_mem_getLast? (Option.mem_def.mpr h)
  rw [List.mem_filter] at hm
  refine ⟨hm.1, ?_⟩
  simpa using hm.2

/-- With pairwise-distinct query objects, the documents matching a given
document's object form exactly the singleton of that document. -/
lemma filter_eq_singleton_of_nodup (bq : Document → ClientBatchCheckItem)
    (docs : List Document) (d : Document)
    (hnd : (docs.map (fun x => (bq x).object)).Nodup) (hd : d ∈ docs) :
    docs.filter (fun x => (bq x).object = (bq d).object) = [d] := by
  induction docs with
  | nil => cases hd
  | cons a docs ih =>
    rw [List.map_cons, List.nodup_cons] at hnd
    obtain ⟨ha, hnd'⟩ := hnd
    rcases List.mem_cons.mp hd with heq | hd'
    · rw [heq]
      have hnil : docs.filter (fun x => (bq x).object = (bq a).object) = [] := by
        rw [List.filter_eq_nil_iff]
        intro x hx hpx
        apply ha
        rw [decide_eq_true_eq] at hpx
        rw [← hpx]
        exact List.mem_map_of_mem _ hx
      rw [List.filter_cons_of_pos (by simp), hnil]
    · have hobj : (bq d).object ∈ docs.map (fun x => (bq x).object) :=
        List.mem_map_of_mem _ hd'
      have hne : ¬((bq a).object = (bq d).object) := by
        intro he
        rw [← he] at hobj
        exact ha hobj
      rw [List.filter_cons_of_neg (by simpa using hne)]
      exact ih hnd' hd'

/-- With pairwise-distinct query objects, the object key determines the
document: the query-object map is injective on the candidate list. -/
lemma object_inj_of_nodup (bq : Document → ClientBatchCheckItem)
    (docs : List Document)
    (hnd : (docs.map (fun x => (bq x).object)).Nodup)
    (d1 d2 : Document) (h1 : d1 ∈ docs) (h2 : d2 ∈ docs)
    (he : (bq d1).object = (bq d2).object) : d1 = d2 := by
  have hf := filter_eq_singleton_of_nodup bq docs d2 hnd h2
  have hm : d1 ∈ docs.filter (fun x => (bq x).object = (bq d2).object) := by
    rw [List.mem_filter]
    exact ⟨h1, by simp [he]⟩
  rw [hf] at hm
  simpa using hm

lemma obj_to_doc_self_of_nodup (bq : Document → ClientBatchCheckItem)
    (docs : List Document) (d : Document)
    (hnd : (docs.map (fun x => (bq x).object)).Nodup) (hd : d ∈ docs) :
    obj_to_doc (docs.map bq) docs (bq d).object = some d := by
  rw [obj_to_doc_eq_getLast, filter_eq_singleton_of_nodup bq docs d hnd hd]
  rfl

/-- The list comprehension with a fallible dictionary lookup succeeds when
every lookup succeeds, producing the list of looked-up values. -/
lemma mapM_lookup_ok {α β : Type} (f : α → Option β) (l : List α)
    (h : ∀ a ∈ l, (f a).isSome = true) :
    (l.mapM (fun a => dict_getitem (f a)) : Except String (List β))
      = Except.ok (l.filterMap f) := by
  induction l with
  | nil => rfl
  | cons a l ih =>
    obtain ⟨b, hb⟩ := Option.isSome_iff_exists.mp (h a (List.mem_cons_self a l))
    have hl : ∀ x ∈ l, (f x).isSome = true :=
      fun x hx => h x (List.mem_cons_of_mem a hx)
    rw [List.mapM_cons, List.filterMap_cons]
    simp only [hb, dict_getitem_some, ih hl]
    rfl

/-- The list comprehension raises `KeyError` as soon as some lookup fails. -/
lemma mapM_lookup_error {α β : Type} (f : α → Option β) (l : List α)
    (h : ∃ a ∈ l, f a = none) :
    (l.mapM (fun a => dict_getitem (f a)) : Except String (List β))
      = Except.error "KeyError" := by
  induction l with
  | nil => simp at h
  | cons a l ih =>
    rw [List.mapM_cons]
    cases hfa : f a with
    | none => simp only [hfa, dict_getitem_none]; rfl
    | some b =>
      rcases h with ⟨x, hx, hfx⟩
      rcases List.mem_cons.mp hx with heq | hx'
      · rw [heq] at hfx; rw [hfa] at hfx; cases hfx
      · simp only [hfa, dict_getitem_some, ih ⟨x, hx', hfx⟩]
        rfl

/-- Inversion: when the comprehension succeeds, its output is related
pointwise, in order, to the input list by the lookup function. -/
lemma mapM_lookup_ok_inv {α β : Type} (f : α → Option β) (l : List α)
    (out : List β)
    (h : (l.mapM (fun a => dict_getitem (f a)) : Except String (List β))
      = Except.ok out) :
    List.Forall₂ (fun a b => f a = some b) l out := by
  induction l generalizing out with
  | nil =>
    rw [List.mapM_nil] at h
    cases h
    exact List.Forall₂.nil
  | cons a l ih =>
    rw [List.mapM_cons] at h
    cases hfa : f a with
    | none =>
      simp only [hfa, dict_getitem_none] at h
      have h2 : (Except.error "KeyError" : Except String (List β))
          = Except.ok out := h
      cases h2
    | some b =>
      simp only [hfa, dict_getitem_some] at h
      cases hml : (l.mapM (fun a => dict_getitem (f a)) : Except String (List β)) with
      | error e =>
        rw [hml] at h
        have h2 : (Except.error e : Except String (List β)) = Except.ok out := h
        cases h2
      | ok out' =>
        rw [hml] at h
        have h2 : (Except.ok (b :: out') : Except String (List β))
            = Except.ok out := h
        cases h2
        exact List.Forall₂.cons hfa (ih out' hml)

/-- From a `Forall₂` relation, each member of the right list has a related
member of the left list. -/
lemma forall₂_mem_right {α β : Type} {R : α → β → Prop} {l : List α}
    {out : List β} (h : List.Forall₂ R l out) (b : β) (hb : b ∈ out) :
    ∃ a ∈ l, R a b := by
  induction h with
  | nil => cases hb
  | cons hr _ ih =>
    rcases List.mem_cons.mp hb with heq | hb'
    · exact ⟨_, List.mem_cons_self _ _, heq ▸ hr⟩
    · obtain ⟨a, ha, hra⟩ := ih hb'
      exact ⟨a, List.mem_cons_of_mem _ ha, hra⟩

/-- `_filter_FGA`'s comprehension, when every allowed result's object is a
key of `obj_to_doc`, returns the looked-up documents of the allowed results
in response order. -/
lemma filter_FGA_core_eq_filterMap (bq : Document → ClientBatchCheckItem)
    (docs : List Document) (resp : ClientBatchCheckResponse)
    (h : ∀ r ∈ resp.result.filter (fun r => r.allowed),
        (obj_to_doc (docs.map bq) docs r.request.object).isSome = true) :
    filter_FGA_core bq docs resp
      = Except.ok ((resp.result.filter (fun r => r.allowed)).filterMap
          (fun r => obj_to_doc (docs.map bq) docs r.request.object)) := by
  unfold filter_FGA_core
  exact mapM_lookup_ok _ _ h

/-- The async body is the same function, so the same characterization holds
for `_async_filter_FGA`. -/
lemma async_filter_FGA_core_eq_filterMap (bq : Document → ClientBatchCheckItem)
    (docs : List Document) (resp : ClientBatchCheckResponse)
    (h : ∀ r ∈ resp.result.filter (fun r => r.allowed),
        (obj_to_doc (docs.map bq) docs r.request.object).isSome = true) :
    async_filter_FGA_core bq docs resp
      = Except.ok ((resp.result.filter (fun r => r.allowed)).filterMap
          (fun r => obj_to_doc (docs.map bq) docs r.request.object)) :=
  filter_FGA_core_eq_filterMap bq docs resp h

/-- Inversion form: a successful `_filter_FGA` run relates allowed results
to output documents pointwise via the dictionary lookup. -/
lemma filter_FGA_core_ok_forall₂ (bq : Document → ClientBatchCheckItem)
    (docs : List Document) (resp : ClientBatchCheckResponse)
    (out : List Document)
    (h : filter_FGA_core bq docs resp = Except.ok out) :
    List.Forall₂ (fun r d => obj_to_doc (docs.map bq) docs r.request.object = some d)
      (resp.result.filter (fun r => r.allowed)) out := by
  unfold filter_FGA_core at h
  exact mapM_lookup_ok_inv _ _ _ h

/-- Counting an element of a `filterMap` counts the preimages hitting it. -/
lemma count_filterMap_eq_countP {α β : Type} [DecidableEq β]
    (f : α → Option β) (l : List α) (b : β) :
    List.count b (l.filterMap f) = l.countP (fun a => f a = some b) := by
  induction l with
  | nil => rfl
  | cons a l ih =>
    rw [List.filterMap_cons, List.countP_cons]
    cases hfa : f a with
    | none => simp [hfa, ih]
    | some c =>
      rw [List.count_cons, ih]
      by_cases hcb : c = b
      · simp [hfa, hcb]
      · simp [hfa, hcb]

/-- With pairwise-distinct echoed requests, the number of allowed results
answering a given request is decided by the unique result carrying it. -/
lemma countP_request_allowed (l : List ClientBatchCheckSingleResponse)
    (q : ClientBatchCheckItem)
    (hnd : (l.map (fun r => r.request)).Nodup)
    (r0 : ClientBatchCheckSingleResponse) (hr0 : r0 ∈ l) (hq : r0.request = q) :
    l.countP (fun r => decide (r.request = q) && r.allowed)
      = if r0.allowed then 1 else 0 := by
  induction l with
  | nil => cases hr0
  | cons a l ih =>
    rw [List.map_cons, List.nodup_cons] at hnd
    obtain ⟨ha, hnd'⟩ := hnd
    rw [List.countP_cons]
    rcases List.mem_cons.mp hr0 with heq | hr0'
    · have haq : a.request = q := by rw [← heq]; exact hq
      have htail : l.countP (fun r => decide (r.request = q) && r.allowed) = 0 := by
        rw [List.countP_eq_zero]
        intro r hr
        simp only [Bool.and_eq_true, decide_eq_true_eq, not_and]
        intro hrq _
        apply ha
        rw [haq, ← hrq]
        exact List.mem_map_of_mem _ hr
      rw [htail, ← heq, hq]
      simp
    · have hane : ¬(a.request = q) := by
        intro he
        apply ha
        rw [he, ← hq]
        exact List.mem_map_of_mem _ hr0'
      rw [ih hnd' hr0']
      simp [hane]

/-! ### Concrete inputs used by witnesses and counterexamples -/

/-- A private document, per the spec's example scenario. -/
def exDoc1 : Document :=
  { id := "a1", page_content := "alpha", metadata := [("access", "private")] }

/-- A public document, per the spec's example scenario. -/
def exDoc2 : Document :=
  { id := "pub", page_content := "beta", metadata := [("access", "public")] }

/-- A query builder in the style of main.py: fixed subject and relation, the
object derived from the document id. -/
def exBuild : Document → ClientBatchCheckItem :=
  fun d => { user := "user:alice", relation := "viewer", object := "doc:" ++ d.id }

/-- A response answering each of `exBuild`'s queries for
`[exDoc1, exDoc2]` exactly once, in reversed order, allowing only `exDoc2`. -/
def exRespC1 : ClientBatchCheckResponse :=
  { result := [ { request := exBuild exDoc2, allowed := true },
                { request := exBuild exDoc1, allowed := false } ] }

/-- A response allowing both documents, in reversed order. -/
def exRespBoth : ClientBatchCheckResponse :=
  { result := [ { request := exBuild exDoc2, allowed := true },
                { request := exBuild exDoc1, allowed := true } ] }


/-! ### Claim theorems -/

/-- C1: for every candidate list and every authorization response, the list
returned by the sync filter (`_filter_FGA`) or the async filter
(`_async_filter_FGA`) is a subset of the input candidates; every output
document was resolved from a result with `allowed = true`; and a document
all of whose resolving results have `allowed = false` never appears. -/
theorem C1_filter_output_subset
    (bq : Document → ClientBatchCheckItem) (docs : List Document)
    (resp : ClientBatchCheckResponse) (out : List Document)
    (h : filter_FGA_core bq docs resp = Except.ok out
       ∨ async_filter_FGA_core bq docs resp = Except.ok out) :
    (∀ d ∈ out, d ∈ docs) ∧
    (∀ d ∈ out, ∃ r ∈ resp.result, r.allowed = true ∧
        obj_to_doc (docs.map bq) docs r.request.object = some d) ∧
    (∀ d : Document,
        (∀ r ∈ resp.result,
            obj_to_doc (docs.map bq) docs r.request.object = some d →
            r.allowed = false) →
        d ∉ out) := by
  have hsync : filter_FGA_core bq docs resp = Except.ok out := by
    rcases h with h | h <;> exact h
  have hf := filter_FGA_core_ok_forall₂ bq docs resp out hsync
  have hmem : ∀ d ∈ out, ∃ r ∈ resp.result.filter (fun r => r.allowed),
      obj_to_doc (docs.map bq) docs r.request.object = some d :=
    fun d hd => forall₂_mem_right hf d hd
  refine ⟨?_, ?_, ?_⟩
  · intro d hd
    obtain ⟨r, _, hres⟩ := hmem d hd
    exact (obj_to_doc_mem bq docs r.request.object d hres).1
  · intro d hd
    obtain ⟨r, hr, hres⟩ := hmem d hd
    rw [List.mem_filter] at hr
    exact ⟨r, hr.1, hr.2, hres⟩
  · intro d hall hd
    obtain ⟨r, hr, hres⟩ := hmem d hd
    rw [List.mem_filter] at hr
    obtain ⟨hr1, hr2⟩ := hr
    have hfalse := hall r hr1 hres
    rw [hfalse] at hr2
    cases hr2

/-- Witness for C1 at the spec's example scenario: the hypothesis holds by
computation and the subset conclusion follows by applying the theorem. -/
theorem C1_filter_output_subset_witness :
    (filter_FGA_core exBuild [exDoc1, exDoc2] exRespC1 = Except.ok [exDoc2]
       ∨ async_filter_FGA_core exBuild [exDoc1, exDoc2] exRespC1
           = Except.ok [exDoc2]) ∧
    exDoc2 ∈ [exDoc1, exDoc2] :=
  ⟨Or.inl rfl,
   (C1_filter_output_subset exBuild [exDoc1, exDoc2] exRespC1 [exDoc2]
      (Or.inl rfl)).1 exDoc2 (List.mem_singleton.mpr rfl)⟩

/-- C4: a successful run of `_filter_FGA` / `_async_filter_FGA` emits its
output in the order of the allowed results of the authorization response:
the output is exactly, position by position, the document resolved from each
allowed result, and it has one entry per allowed result. -/
theorem C4_output_in_response_order
    (bq : Document → ClientBatchCheckItem) (docs : List Document)
    (resp : ClientBatchCheckResponse) (out : List Document)
    (h : filter_FGA_core bq docs resp = Except.ok out
       ∨ async_filter_FGA_core bq docs resp = Except.ok out) :
    List.Forall₂
      (fun r d => obj_to_doc (docs.map bq) docs r.request.object = some d)
      (resp.result.filter (fun r => r.allowed)) out ∧
    out.length = (resp.result.filter (fun r => r.allowed)).length := by
  have hsync : filter_FGA_core bq docs resp = Except.ok out := by
    rcases h with h | h <;> exact h
  have hf := filter_FGA_core_ok_forall₂ bq docs resp out hsync
  exact ⟨hf, hf.length_eq.symm⟩

/-- Witness for C4: with both documents allowed but the response in reversed
order, the output follows the response order `[exDoc2, exDoc1]`, not the
retrieval order `[exDoc1, exDoc2]`. -/
theorem C4_output_in_response_order_witness :
    (filter_FGA_core exBuild [exDoc1, exDoc2] exRespBoth
        = Except.ok [exDoc2, exDoc1]) ∧
    ([exDoc2, exDoc1] : List Document).length
        = (exRespBoth.result.filter (fun r => r.allowed)).length ∧
    decide (([exDoc2, exDoc1] : List Document) = [exDoc1, exDoc2]) = false :=
  ⟨rfl,
   (C4_output_in_response_order exBuild [exDoc1, exDoc2] exRespBoth
      [exDoc2, exDoc1] (Or.inl rfl)).2,
   by decide⟩

/-- C5: the blocking and non-blocking filtering paths are extensionally
equal: on every identical candidate list and identical client response (or
client oracle), `_filter_FGA` and `_async_filter_FGA` return the same list,
and the two retrieval entry points agree as well. -/
theorem C5_sync_async_extensionally_equal :
    (∀ (bq : Document → ClientBatchCheckItem) (docs : List Document)
        (resp : ClientBatchCheckResponse),
        filter_FGA_core bq docs resp = async_filter_FGA_core bq docs resp) ∧
    (∀ (bq : Document → ClientBatchCheckItem)
        (batch_check : List ClientBatchCheckItem →
          Except String ClientBatchCheckResponse)
        (docs : List Document),
        filter_FGA bq batch_check docs = async_filter_FGA bq batch_check docs) ∧
    (∀ (retriever : String → Except String (List Document))
        (bq : Document → ClientBatchCheckItem)
        (batch_check : List ClientBatchCheckItem →
          Except String ClientBatchCheckResponse)
        (query : String),
        get_relevant_documents retriever bq batch_check query
          = aget_relevant_documents retriever bq batch_check query) := by
  refine ⟨fun bq docs resp => rfl, fun bq bc docs => ?_, fun retr bq bc q => ?_⟩
  · unfold filter_FGA async_filter_FGA
    cases bc (docs.map bq) with
    | error e => rfl
    | ok resp => rfl
  · unfold get_relevant_documents aget_relevant_documents
    cases retr q with
    | error e => rfl
    | ok docs =>
      unfold filter_FGA async_filter_FGA
      cases bc (docs.map bq) with
      | error e => rfl
      | ok resp => rfl

/-- C3: for a candidate set of size `n`, one retrieval's filter makes
exactly one `batch_check` call, whose payload is the `n` queries built by
applying the query builder once to each candidate in order; this holds for
both the sync and the async path, for every oracle. -/
theorem C3_single_batched_call
    (bq : Document → ClientBatchCheckItem)
    (batch_check : List ClientBatchCheckItem →
      Except String ClientBatchCheckResponse)
    (docs : List Document) :
    ((filter_FGA_traced bq batch_check docs).batch_check_payloads
        = [docs.map bq] ∧
     (filter_FGA_traced bq batch_check docs).batch_check_payloads.map
        List.length = [docs.length] ∧
     (filter_FGA_traced bq batch_check docs).build_query_args = docs) ∧
    ((async_filter_FGA_traced bq batch_check docs).batch_check_payloads
        = [docs.map bq] ∧
     (async_filter_FGA_traced bq batch_check docs).batch_check_payloads.map
        List.length = [docs.length] ∧
     (async_filter_FGA_traced bq batch_check docs).build_query_args = docs) := by
  refine ⟨⟨rfl, ?_, rfl⟩, ⟨rfl, ?_, rfl⟩⟩ <;> simp [filter_FGA_traced, async_filter_FGA_traced]

/-- An upstream retriever that succeeds with the two example documents. -/
def exRetrieverOk : String → Except String (List Document) :=
  fun _ => Except.ok [exDoc1, exDoc2]

/-- An FGA client whose `batch_check` raises on every payload. -/
def exBatchErr : List ClientBatchCheckItem → Except String ClientBatchCheckResponse :=
  fun _ => Except.error "AuthorizationServiceError"

/-- C6: fail-closed — when the upstream retrieval succeeds but the client's
`batch_check` raises, the whole retrieval call (`_get_relevant_documents` /
`_aget_relevant_documents`) propagates that error: no unfiltered or partial
candidate list is ever returned. -/
theorem C6_fail_closed_on_client_error
    (retriever : String → Except String (List Document))
    (bq : Document → ClientBatchCheckItem)
    (batch_check : List ClientBatchCheckItem →
      Except String ClientBatchCheckResponse)
    (query : String) (docs : List Document) (e : String)
    (hret : retriever query = Except.ok docs)
    (herr : batch_check (docs.map bq) = Except.error e) :
    get_relevant_documents retriever bq batch_check query = Except.error e ∧
    aget_relevant_documents retriever bq batch_check query = Except.error e ∧
    filter_FGA bq batch_check docs = Except.error e ∧
    async_filter_FGA bq batch_check docs = Except.error e := by
  have hfil : filter_FGA bq batch_check docs = Except.error e := by
    simp only [filter_FGA, herr]
  have hafil : async_filter_FGA bq batch_check docs = Except.error e := by
    simp only [async_filter_FGA, herr]
  refine ⟨?_, ?_, hfil, hafil⟩
  · unfold get_relevant_documents
    rw [hret]
    exact hfil
  · unfold aget_relevant_documents
    rw [hret]
    exact hafil

/-- Witness for C6: a concrete always-raising client makes the retrieval
call raise. -/
theorem C6_fail_closed_on_client_error_witness :
    get_relevant_documents exRetrieverOk exBuild exBatchErr "query"
      = Except.error "AuthorizationServiceError" :=
  (C6_fail_closed_on_client_error exRetrieverOk exBuild exBatchErr "query"
    [exDoc1, exDoc2] "AuthorizationServiceError" rfl rfl).1

/-- C7: when several candidates map to the same authorization object key,
the `obj_to_doc` mapping binds that key to the *later* candidate in
iteration order — the later assignment silently overwrites the earlier one —
so any allowed result carrying that key resolves to the later candidate,
never the earlier one (when the two differ). -/
theorem C7_duplicate_key_later_candidate_wins
    (bq : Document → ClientBatchCheckItem)
    (xs ys : List Document) (d1 d2 : Document)
    (_hd1 : d1 ∈ xs) (_hsame : (bq d1).object = (bq d2).object)
    (hy : ∀ d ∈ ys, (bq d).object ≠ (bq d2).object) :
    obj_to_doc ((xs ++ d2 :: ys).map bq) (xs ++ d2 :: ys) (bq d2).object
      = some d2 ∧
    (d1 ≠ d2 →
      obj_to_doc ((xs ++ d2 :: ys).map bq) (xs ++ d2 :: ys) (bq d2).object
        ≠ some d1) := by
  have hbind : obj_to_doc ((xs ++ d2 :: ys).map bq) (xs ++ d2 :: ys)
      (bq d2).object = some d2 := by
    rw [obj_to_doc_eq_getLast, List.filter_append,
      List.filter_cons_of_pos (by simp)]
    have hnil : ys.filter (fun x => (bq x).object = (bq d2).object) = [] := by
      rw [List.filter_eq_nil_iff]
      intro x hx
      simpa using hy x hx
    rw [hnil]
    exact List.getLast?_concat _
  refine ⟨hbind, fun hne habs => ?_⟩
  rw [hbind] at habs
  cases habs
  exact hne rfl

/-- First of two documents that share one authorization object key. -/
def dupDoc1 : Document := { id := "a", page_content := "x", metadata := [] }

/-- Second of two documents that share one authorization object key. -/
def dupDoc2 : Document := { id := "b", page_content := "y", metadata := [] }

/-- A query builder mapping distinct documents to distinct queries that all
carry the same `object` key. -/
def dupBuild : Document → ClientBatchCheckItem :=
  fun d => { user := "user:" ++ d.page_content, relation := "viewer",
             object := "doc:shared" }

/-- Witness for C7: with `dupDoc1` before `dupDoc2` and both mapping to
`"doc:shared"`, the mapping resolves that key to `dupDoc2`. -/
theorem C7_duplicate_key_later_candidate_wins_witness :
    obj_to_doc (([dupDoc1] ++ dupDoc2 :: []).map dupBuild)
        ([dupDoc1] ++ dupDoc2 :: []) (dupBuild dupDoc2).object
      = some dupDoc2 :=
  (C7_duplicate_key_later_candidate_wins dupBuild [dupDoc1] [] dupDoc1 dupDoc2
    (by decide) rfl (by simp)).1

/-- An FGA client that answers every payload with an empty result list. -/
def exBatchEmptyOk : List ClientBatchCheckItem →
    Except String ClientBatchCheckResponse :=
  fun _ => Except.ok { result := [] }

/-- C8 counterexample: with zero candidates the code still makes one
`batch_check` call, with an empty payload, on both paths; and when the
client raises on that empty payload the retrieval raises instead of
returning the empty output — refuting "the batch call is not made, or at
least cannot cause an error, in the empty case". -/
theorem C8_counterexample :
    (filter_FGA_traced exBuild exBatchErr []).batch_check_payloads = [[]] ∧
    (async_filter_FGA_traced exBuild exBatchErr []).batch_check_payloads
      = [[]] ∧
    filter_FGA exBuild exBatchErr []
      = Except.error "AuthorizationServiceError" ∧
    get_relevant_documents (fun _ => Except.ok []) exBuild exBatchErr "query"
      = Except.error "AuthorizationServiceError" :=
  ⟨rfl, rfl, rfl, rfl⟩

/-- C8 (amended): with zero candidates, zero authorization queries are
built, and `batch_check` is still invoked exactly once, with the empty
payload; if the client then returns a response with no allowed results the
output is the empty list, and if the client raises, the call raises
(fail-closed). -/
theorem C8_empty_input_amended
    (bq : Document → ClientBatchCheckItem)
    (batch_check : List ClientBatchCheckItem →
      Except String ClientBatchCheckResponse) :
    (filter_FGA_traced bq batch_check []).build_query_args = [] ∧
    (filter_FGA_traced bq batch_check []).batch_check_payloads = [[]] ∧
    (async_filter_FGA_traced bq batch_check []).batch_check_payloads = [[]] ∧
    (∀ resp, batch_check [] = Except.ok resp →
      (∀ r ∈ resp.result, r.allowed = false) →
      filter_FGA bq batch_check [] = Except.ok [] ∧
      async_filter_FGA bq batch_check [] = Except.ok []) ∧
    (∀ e, batch_check [] = Except.error e →
      filter_FGA bq batch_check [] = Except.error e ∧
      async_filter_FGA bq batch_check [] = Except.error e) := by
  refine ⟨rfl, rfl, rfl, ?_, ?_⟩
  · intro resp hok hall
    have hfe : resp.result.filter (fun r => r.allowed) = [] := by
      rw [List.filter_eq_nil_iff]
      intro r hr
      simp [hall r hr]
    constructor
    · simp only [filter_FGA, List.map_nil, hok]
      unfold filter_FGA_core
      rw [hfe]
      rfl
    · simp only [async_filter_FGA, List.map_nil, hok]
      unfold async_filter_FGA_core
      rw [hfe]
      rfl
  · intro e herr
    constructor
    · simp only [filter_FGA, List.map_nil, herr]
    · simp only [async_filter_FGA, List.map_nil, herr]

/-- Witness for C8 (amended): a client succeeding with no results on the
empty payload yields the empty output, after the one batch call was made. -/
theorem C8_empty_input_amended_witness :
    filter_FGA exBuild exBatchEmptyOk [] = Except.ok [] ∧
    (filter_FGA_traced exBuild exBatchEmptyOk []).batch_check_payloads
      = [[]] :=
  ⟨((C8_empty_input_amended exBuild exBatchEmptyOk).2.2.2.1
      { result := [] } rfl (by simp)).1,
   (C8_empty_input_amended exBuild exBatchEmptyOk).2.1⟩

/-- C9: constructing the retriever without an explicit configuration
resolves it from the environment with the documented fallbacks —
`api_url = "api.us1.fga.dev"`, `api_issuer = "auth.fga.dev"`,
`api_audience = "https://api.us1.fga.dev/"` when the variables are unset —
while an explicitly passed configuration is used unchanged. -/
theorem C9_config_defaults_and_precedence
    (env : String → Option String) (c : ClientConfiguration)
    (hurl : env "FGA_API_URL" = none)
    (hiss : env "FGA_API_TOKEN_ISSUER" = none)
    (haud : env "FGA_API_AUDIENCE" = none) :
    (resolve_fga_configuration none env).api_url = "api.us1.fga.dev" ∧
    (resolve_fga_configuration none env).credentials.configuration.api_issuer
      = "auth.fga.dev" ∧
    (resolve_fga_configuration none env).credentials.configuration.api_audience
      = "https://api.us1.fga.dev/" ∧
    (resolve_fga_configuration none env).credentials.method
      = "client_credentials" ∧
    (resolve_fga_configuration none env).store_id = env "FGA_STORE_ID" ∧
    resolve_fga_configuration (some c) env = c := by
  refine ⟨?_, ?_, ?_, rfl, rfl, rfl⟩ <;>
    simp [resolve_fga_configuration, getenvOr, hurl, hiss, haud]

/-- An explicitly supplied client configuration. -/
def exConfig : ClientConfiguration :=
  { api_url := "fga.example.test"
    store_id := some "store123"
    credentials :=
      { method := "client_credentials"
        configuration :=
          { api_issuer := "issuer.example.test"
            api_audience := "audience.example.test"
            client_id := some "cid"
            client_secret := some "cs" } } }

/-- Witness for C9: with an empty environment the url falls back to the
documented default, and an explicit configuration is returned as-is. -/
theorem C9_config_defaults_and_precedence_witness :
    (resolve_fga_configuration none (fun _ => none)).api_url
      = "api.us1.fga.dev" ∧
    resolve_fga_configuration (some exConfig) (fun _ => none) = exConfig :=
  ⟨(C9_config_defaults_and_precedence (fun _ => none) exConfig
      rfl rfl rfl).1,
   (C9_config_defaults_and_precedence (fun _ => none) exConfig
      rfl rfl rfl).2.2.2.2.2⟩

/-- A response whose single allowed result carries an object identifier
matching no issued query. -/
def orphanResp : ClientBatchCheckResponse :=
  { result := [ { request := { user := "user:alice", relation := "viewer",
                               object := "doc:ghost" },
                  allowed := true } ] }

/-- C10: the join lookup is total exactly under the precondition that every
result's `request.object` is the object of some issued query — then the
filter succeeds on both paths — while a response with an allowed result
whose object matches no issued query makes the filter raise `KeyError`
instead of skipping that result. -/
theorem C10_lookup_total_iff_every_result_matched :
    (∀ (bq : Document → ClientBatchCheckItem) (docs : List Document)
        (resp : ClientBatchCheckResponse),
        (∀ r ∈ resp.result, ∃ d ∈ docs, (bq d).object = r.request.object) →
        ∃ out, filter_FGA_core bq docs resp = Except.ok out ∧
               async_filter_FGA_core bq docs resp = Except.ok out) ∧
    (filter_FGA_core exBuild [exDoc1, exDoc2] orphanResp
        = Except.error "KeyError" ∧
     async_filter_FGA_core exBuild [exDoc1, exDoc2] orphanResp
        = Except.error "KeyError") := by
  constructor
  · intro bq docs resp h
    have hsucc : ∀ r ∈ resp.result.filter (fun r => r.allowed),
        (obj_to_doc (docs.map bq) docs r.request.object).isSome = true := by
      intro r hr
      obtain ⟨d, hd, ho⟩ := h r (List.mem_of_mem_filter hr)
      rw [obj_to_doc_isSome_iff]
      exact ⟨d, hd, ho⟩
    exact ⟨_, filter_FGA_core_eq_filterMap bq docs resp hsucc,
      filter_FGA_core_eq_filterMap bq docs resp hsucc⟩
  · exact ⟨rfl, rfl⟩

/-- Witness for C10: a fully matched response satisfies the precondition and
the filter succeeds. -/
theorem C10_lookup_total_iff_every_result_matched_witness :
    ∃ out, filter_FGA_core exBuild [exDoc1, exDoc2] exRespBoth
        = Except.ok out ∧
      async_filter_FGA_core exBuild [exDoc1, exDoc2] exRespBoth
        = Except.ok out :=
  C10_lookup_total_iff_every_result_matched.1 exBuild [exDoc1, exDoc2]
    exRespBoth (by decide)

/-- A response answering each of `dupBuild`'s two distinct queries (which
share one object key) exactly once, allowing both. -/
def dupResp : ClientBatchCheckResponse :=
  { result := [ { request := dupBuild dupDoc1, allowed := true },
                { request := dupBuild dupDoc2, allowed := true } ] }

/-- A response answering the single issued query for `[exDoc1]` twice. -/
def echoResp : ClientBatchCheckResponse :=
  { result := [ { request := exBuild exDoc1, allowed := true },
                { request := exBuild exDoc1, allowed := true } ] }

/-- C2 counterexample: (a) two candidates sharing one object key, each of
whose distinct queries is answered exactly once with `allowed = true`,
produce the output `[dupDoc2, dupDoc2]` — the earlier candidate appears
zero times despite its allowed result, the later twice; (b) even with
distinct keys, a response answering one query twice duplicates that
candidate.  Both refute "appears exactly once" as universally stated. -/
theorem C2_counterexample :
    (dupResp.result.map (fun r => r.request) = [dupDoc1, dupDoc2].map dupBuild ∧
     decide (dupBuild dupDoc1 = dupBuild dupDoc2) = false ∧
     filter_FGA_core dupBuild [dupDoc1, dupDoc2] dupResp
        = Except.ok [dupDoc2, dupDoc2] ∧
     List.count dupDoc1 [dupDoc2, dupDoc2] = 0 ∧
     List.count dupDoc2 [dupDoc2, dupDoc2] = 2) ∧
    (filter_FGA_core exBuild [exDoc1] echoResp = Except.ok [exDoc1, exDoc1] ∧
     List.count exDoc1 [exDoc1, exDoc1] = 2) :=
  ⟨⟨rfl, by decide, rfl, by decide, by decide⟩, ⟨rfl, by decide⟩⟩

/-- C2 (amended): when the candidates' object keys are pairwise distinct and
the response's echoed requests are exactly a permutation of the issued
queries (each result answers one query, each query answered once), both
filters succeed with the same output, in which every candidate whose result
is `allowed = true` appears exactly once and every candidate whose result is
`allowed = false` appears zero times.  With duplicate object keys the
property fails (see the counterexample). -/
theorem C2_decision_fidelity
    (bq : Document → ClientBatchCheckItem) (docs : List Document)
    (resp : ClientBatchCheckResponse)
    (hnd : (docs.map (fun d => (bq d).object)).Nodup)
    (hperm : (resp.result.map (fun r => r.request)).Perm (docs.map bq)) :
    ∃ out, filter_FGA_core bq docs resp = Except.ok out ∧
      async_filter_FGA_core bq docs resp = Except.ok out ∧
      ∀ d ∈ docs, ∀ r ∈ resp.result, r.request = bq d →
        List.count d out = if r.allowed then 1 else 0 := by
  have hsucc : ∀ r ∈ resp.result.filter (fun r => r.allowed),
      (obj_to_doc (docs.map bq) docs r.request.object).isSome = true := by
    intro r hr
    have hreq : r.request ∈ docs.map bq :=
      (hperm.mem_iff).mp (List.mem_map_of_mem _ (List.mem_of_mem_filter hr))
    obtain ⟨d', hd', hbd'⟩ := List.mem_map.mp hreq
    rw [obj_to_doc_isSome_iff]
    exact ⟨d', hd', by rw [hbd']⟩
  refine ⟨(resp.result.filter (fun r => r.allowed)).filterMap
      (fun r => obj_to_doc (docs.map bq) docs r.request.object),
    filter_FGA_core_eq_filterMap bq docs resp hsucc,
    async_filter_FGA_core_eq_filterMap bq docs resp hsucc, ?_⟩
  intro d hd r hr hrq
  have hiff : ∀ r' ∈ resp.result,
      (obj_to_doc (docs.map bq) docs r'.request.object = some d
        ↔ r'.request = bq d) := by
    intro r' hr'
    constructor
    · intro hsome
      obtain ⟨hdm, hobj⟩ := obj_to_doc_mem bq docs r'.request.object d hsome
      have hreq : r'.request ∈ docs.map bq :=
        (hperm.mem_iff).mp (List.mem_map_of_mem _ hr')
      obtain ⟨d2, hd2, hbd2⟩ := List.mem_map.mp hreq
      have hoo : (bq d2).object = (bq d).object := by
        rw [hbd2]
        exact hobj.symm
      have hdd : d2 = d := object_inj_of_nodup bq docs hnd d2 d hd2 hdm hoo
      rw [← hbd2, hdd]
    · intro heq
      rw [heq]
      exact obj_to_doc_self_of_nodup bq docs d hnd hd
  have hndreq : (resp.result.map (fun r => r.request)).Nodup := by
    have h1 : ((docs.map bq).map (fun q => q.object)).Nodup := by
      rw [List.map_map]
      exact hnd
    exact hperm.symm.nodup (List.Nodup.of_map _ h1)
  rw [count_filterMap_eq_countP, List.countP_filter]
  refine Eq.trans (List.countP_congr ?_)
    (countP_request_allowed resp.result (bq d) hndreq r hr hrq)
  intro r' hr'
  simp only [Bool.and_eq_true, decide_eq_true_eq]
  constructor
  · rintro ⟨hs, ha⟩
    exact ⟨(hiff r' hr').mp hs, ha⟩
  · rintro ⟨hs, ha⟩
    exact ⟨(hiff r' hr').mpr hs, ha⟩

/-- Witness for C2 (amended) at the spec's example scenario: distinct object
keys, a response in reversed order answering each query once. -/
theorem C2_decision_fidelity_witness :
    ∃ out, filter_FGA_core exBuild [exDoc1, exDoc2] exRespC1 = Except.ok out ∧
      async_filter_FGA_core exBuild [exDoc1, exDoc2] exRespC1
        = Except.ok out ∧
      ∀ d ∈ [exDoc1, exDoc2], ∀ r ∈ exRespC1.result, r.request = exBuild d →
        List.count d out = if r.allowed then 1 else 0 :=
  C2_decision_fidelity exBuild [exDoc1, exDoc2] exRespC1 (by decide) (by decide)
